import Mathlib

/-!
Shallow embedding of the content-pipeline core of the `lowdown_mvp` repository:
the article/snapshot store (`src/database/db_handler.py`), the pipeline
endpoints (`src/main.py`), the summarization adapter
(`src/services/ai_service.py`) and the admin ordering/export helpers
(`src/admin_app.py`).

Conventions of the embedding:
* A SQLite table is a `List` of rows plus the autoincrement counter
  (`lastrowid` source).  `SELECT ... WHERE` is `List.find?` / `List.filter`,
  `ORDER BY position ASC` is an insertion sort on the `position` column,
  `UPDATE ... WHERE id = ?` is a `List.map` guarded on the id.
* `updated_at` / `created_at` timestamps carry no information used by any
  claim and are omitted from the row model.
* Python's falsiness test `if not content` on an `Optional[str]` is modelled
  on `Option String` as `(·.getD "") = ""`.
* External effects (the web scraper, the OpenAI client call) enter as
  explicit outcome parameters: `Except e a` for a call that can raise.
-/

/-- Python `str.strip()`: drop whitespace from both ends.  (`String.trim`
does the same but does not reduce definitionally, so we model it directly
on the character list.) -/
def pyStrip (s : String) : String :=
  ⟨((s.data.dropWhile Char.isWhitespace).reverse.dropWhile Char.isWhitespace).reverse⟩

/-- Models `SELECT MAX(position) ...` over the listed position values, with SQL
`NULL` (empty table) read back as `0` by the callers
(`max_pos if ... is not None else 0` / `(result['max_pos'] or 0)`). -/
def maxPos (ps : List Nat) : Nat := ps.foldr max 0

/-- A row of the `Articles` table (columns used by the pipeline; the
timestamps and the unused `tags` column are omitted). -/
structure Article where
  id : Nat
  url : String
  title : Option String
  source : Option String
  summary : Option String
  original_content : Option String
  status : String
  position : Nat
deriving Repr, DecidableEq

/-- The `Articles` table: rows plus the SQLite autoincrement counter that
feeds `cursor.lastrowid`. -/
structure ArticlesDB where
  rows : List Article
  nextId : Nat
deriving Repr, DecidableEq

/-- The `status != 'archived'` filter used throughout `db_handler.py`. -/
def isActive (a : Article) : Bool := a.status != "archived"

/-- Models `ORDER BY position ASC` on articles. -/
def byPosition : Article → Article → Prop := fun a b => a.position ≤ b.position

instance : DecidableRel byPosition := fun a b => Nat.decLe a.position b.position

/-- Embeds `fetch_all_articles`: non-archived articles ordered by position. -/
def fetch_all_articles (db : ArticlesDB) : List Article :=
  List.insertionSort byPosition (db.rows.filter isActive)

/-- Embeds `get_article_by_id`: `SELECT * FROM Articles WHERE id = ?`, `fetchone`. -/
def get_article_by_id (db : ArticlesDB) (article_id : Nat) : Option Article :=
  db.rows.find? (fun a => a.id = article_id)

/-- Computes `MAX(position)` over all articles, archived included
(`SELECT MAX(position) as max_pos FROM Articles` in the fresh-insert branch
of `add_article`). -/
def maxPosAllArticles (rows : List Article) : Nat :=
  maxPos (rows.map (·.position))

/-- Computes `MAX(position)` over non-archived articles
(`SELECT MAX(position) as max_pos FROM Articles WHERE status != 'archived'`
in the un-archive branch of `add_article`). -/
def maxPosActiveArticles (rows : List Article) : Nat :=
  maxPos ((rows.filter isActive).map (·.position))

/-- Embeds `add_article url title source summary status`: returns the created /
resurrected article (`None` on conflict) and the new table state.  Callers
never pass an explicit `position`, so only the `position is None` path is
modelled. -/
def add_article (db : ArticlesDB) (url : String) (title source summary : Option String)
    (status : String) : Option Article × ArticlesDB :=
  match db.rows.find? (fun a => a.url = url) with
  | some existing =>
    if existing.status = "archived" then
      -- un-archive: status 'pending', position = max active position + 1
      let new_position := maxPosActiveArticles db.rows + 1
      let rows' := db.rows.map (fun a =>
        if a.id = existing.id then
          { a with status := "pending", position := new_position }
        else a)
      (rows'.find? (fun a => a.id = existing.id), { db with rows := rows' })
    else
      -- already active: conflict
      (none, db)
  | none =>
    -- fresh insert; note: position defaults to MAX over ALL rows + 1
    let position := maxPosAllArticles db.rows + 1
    let newArticle : Article :=
      { id := db.nextId, url := url, title := title, source := source,
        summary := summary, original_content := none, status := status,
        position := position }
    let rows' := db.rows ++ [newArticle]
    (rows'.find? (fun a => a.id = db.nextId), { rows := rows', nextId := db.nextId + 1 })

/-- One `key = value` item of the field list that `update_article` builds
from its keyword arguments (whitelisted columns only; nullable columns take
an `Option` value, `none` writing SQL `NULL`). -/
inductive ArticleField where
  | url (v : String)
  | title (v : Option String)
  | source (v : Option String)
  | original_content (v : Option String)
  | summary (v : Option String)
  | status (v : String)
  | position (v : Nat)
deriving Repr, DecidableEq

/-- Apply one `SET key = ?` item to a row. -/
def setArticleField (a : Article) : ArticleField → Article
  | .url v => { a with url := v }
  | .title v => { a with title := v }
  | .source v => { a with source := v }
  | .original_content v => { a with original_content := v }
  | .summary v => { a with summary := v }
  | .status v => { a with status := v }
  | .position v => { a with position := v }

/-- Embeds `update_article article_id **update_data`: applies the field list to the
row with the given id, returns the re-fetched row (`None` when no row
matched, i.e. `rowcount == 0`) and the new state. -/
def update_article (db : ArticlesDB) (article_id : Nat) (fields : List ArticleField) :
    Option Article × ArticlesDB :=
  if fields = [] then
    (get_article_by_id db article_id, db)
  else if db.rows.all (fun a => a.id ≠ article_id) then
    (none, db)
  else
    let rows' := db.rows.map (fun a =>
      if a.id = article_id then fields.foldl setArticleField a else a)
    let db' : ArticlesDB := { db with rows := rows' }
    (get_article_by_id db' article_id, db')

/-- One `UPDATE Articles SET position = ? WHERE id = ?` statement. -/
def updateRowPosition (rows : List Article) (aid : Nat) (p : Nat) : List Article :=
  rows.map (fun a => if a.id = aid then { a with position := p } else a)

/-- The sequential `UPDATE Articles SET position = ? WHERE id = ?` loop:
assigns positions `start, start+1, ...` to the listed ids in order.
(`delete_article` runs it with `start = 1`, `move_article` in the admin app
with `start = 0`.) -/
def assignPositions (rows : List Article) (start : Nat) : List Nat → List Article
  | [] => rows
  | aid :: rest => assignPositions (updateRowPosition rows aid start) (start + 1) rest

/-- Embeds `delete_article`: removes the row, then re-indexes the remaining
non-archived articles to positions `1..N` in their current position order
(`for i, article in enumerate(remaining): position = i + 1`).  Returns
whether a row was deleted. -/
def delete_article (db : ArticlesDB) (article_id : Nat) : Bool × ArticlesDB :=
  if db.rows.all (fun a => a.id ≠ article_id) then
    (false, db)
  else
    let rows₁ := db.rows.filter (fun a => a.id ≠ article_id)
    let remaining := List.insertionSort byPosition (rows₁.filter isActive)
    let rows₂ := assignPositions rows₁ 1 (remaining.map (·.id))
    (true, { db with rows := rows₂ })

-- quick sanity examples (removed content lives in theorems below)
example : pyStrip "  a b  " = "a b" := rfl
example : maxPos [3, 1, 2] = 3 := rfl
example :
    isActive
      { id := 1, url := "u", title := none, source := none, summary := none,
        original_content := none, status := "pending", position := 1 } = true := rfl

/-- A row of the `Snapshots` table (timestamps omitted as for articles; the
`create_snapshot` endpoint always supplies concrete strings for `title`,
`source` and `highlight`, defaulting to `""`). -/
structure Snapshot where
  id : Nat
  url : String
  title : String
  source : String
  highlight : String
  original_content : Option String
  status : String
  position : Nat
deriving Repr, DecidableEq

/-- The `Snapshots` table with its autoincrement counter. -/
structure SnapshotsDB where
  rows : List Snapshot
  nextId : Nat
deriving Repr, DecidableEq

/-- Models `status != 'archived'` for snapshots. -/
def isActiveSnap (sn : Snapshot) : Bool := sn.status != "archived"

/-- Embeds `get_snapshot_by_id`: `SELECT * FROM Snapshots WHERE id = ?`, `fetchone`. -/
def get_snapshot_by_id (db : SnapshotsDB) (snapshot_id : Nat) : Option Snapshot :=
  db.rows.find? (fun sn => sn.id = snapshot_id)

/-- Computes `MAX(position)` over non-archived snapshots
(`SELECT MAX(position) as max_pos FROM Snapshots WHERE status != 'archived'`). -/
def maxPosActiveSnapshots (rows : List Snapshot) : Nat :=
  maxPos ((rows.filter isActiveSnap).map (·.position))

/-- Models `UPDATE Snapshots SET status = 'pending', position = 1 WHERE url = ?`. -/
def snapUnarchiveSet (url : String) (sn : Snapshot) : Snapshot :=
  if sn.url = url then { sn with status := "pending", position := 1 } else sn

/-- Models `UPDATE Snapshots SET position = position + 1 WHERE url != ? AND position >= 1`. -/
def snapShiftDown (url : String) (sn : Snapshot) : Snapshot :=
  if sn.url ≠ url ∧ 1 ≤ sn.position then { sn with position := sn.position + 1 } else sn

/-- Embeds `add_snapshot url title source highlight status`: returns the created /
resurrected snapshot (`None` on conflict) and the new table state.  Unlike
`add_article`, the un-archive branch moves the row to position 1 and shifts
every other row with `position >= 1` down by one. -/
def add_snapshot (db : SnapshotsDB) (url : String) (title source highlight status : String) :
    Option Snapshot × SnapshotsDB :=
  match db.rows.find? (fun sn => sn.url = url) with
  | some existing =>
    if existing.status = "archived" then
      -- UPDATE Snapshots SET status = 'pending', position = 1 WHERE url = ?
      let rows₁ := db.rows.map (snapUnarchiveSet url)
      -- UPDATE Snapshots SET position = position + 1 WHERE url != ? AND position >= 1
      let rows₂ := rows₁.map (snapShiftDown url)
      -- SELECT * FROM Snapshots WHERE url = ?
      (rows₂.find? (fun sn => sn.url = url), { db with rows := rows₂ })
    else
      (none, db)
  | none =>
    -- fresh insert at max active position + 1
    let position := maxPosActiveSnapshots db.rows + 1
    let newSnapshot : Snapshot :=
      { id := db.nextId, url := url, title := title, source := source,
        highlight := highlight, original_content := none, status := status,
        position := position }
    let rows' := db.rows ++ [newSnapshot]
    (rows'.find? (fun sn => sn.id = db.nextId), { rows := rows', nextId := db.nextId + 1 })

/-- Embeds `update_snapshot_highlight snapshot_id highlight original_content`:
sets the highlight, the original content and status `'highlighted'`;
returns `rowcount > 0` and the new state. -/
def update_snapshot_highlight (db : SnapshotsDB) (snapshot_id : Nat)
    (highlight original_content : String) : Bool × SnapshotsDB :=
  if db.rows.all (fun sn => sn.id ≠ snapshot_id) then
    (false, db)
  else
    let rows' := db.rows.map (fun sn =>
      if sn.id = snapshot_id then
        { sn with highlight := highlight, original_content := some original_content,
                  status := "highlighted" }
      else sn)
    (true, { db with rows := rows' })

/-- Models `ai_service.get_ai_summary`'s `truncated_content = content[:15000]` —
Python slicing takes the first 15000 characters (code points). -/
def truncatedContent (content : String) : String :=
  ⟨content.data.take 15000⟩

/-- Text of the summarization prompt before the article title. -/
def aiPromptHead : String :=
  "\n    You are writing for *The Lowdown*, a defense and aviation-focused newsletter. " ++
  "Your task is to analyze the following article and produce two distinct components: " ++
  "a new headline and a fully formatted newsletter summary.\n\n    **Article Title:** "

/-- Text of the summarization prompt between the title and the URL. -/
def aiPromptAfterTitle : String := "\n    **Article URL:** "

/-- Text of the summarization prompt between the URL and the (truncated)
article content. -/
def aiPromptAfterUrl : String := "\n    **Full Content:**\n    ---\n    "

/-- Text of the summarization prompt after the content: the output-format
contract (`**HEADLINE:** ... **SUMMARY_BODY:** ...`), the tone guidelines
and the worked example, which interpolates the URL once more. -/
def aiPromptTail (url : String) : String :=
  "\n    ---\n\n    ### 📝 Output Format:\n    Your final output must be structured " ++
  "*exactly* as follows, with each section on a new line and nothing else.\n\n    " ++
  "**HEADLINE:** [A concise, engaging headline. It should be creative and distinct " ++
  "from the original article title, with a touch of dry, witty humor. This should be " ++
  "plain text without any markdown or emojis.]\n    **SUMMARY_BODY:** [A fully " ++
  "formatted, single markdown block. It must start *exactly* with a 🎯 emoji, " ++
  "followed by the headline in bold. The body should be a compact paragraph (3-5 " ++
  "sentences) summarizing the article with natural hyperlinks. It must end with " ++
  "`(more)` hyperlinked to the original article URL: " ++ url ++ "]\n\n    " ++
  "### ✅ Tone and Style Guidelines (for SUMMARY_BODY):\n    - **Direct, factual, " ++
  "and context-rich.**\n    - Provide **critical operational context** (e.g., delays, " ++
  "strategic impact).\n    - Include **specific stats** and program names.\n    - For " ++
  "technical topics, link to a **Wikipedia or authoritative reference**.\n    - " ++
  "**DO NOT use em-dashes** (—).\n\n    ### Example SUMMARY_BODY:\n    🎯 **A-10s " ++
  "Head to the Boneyard Early**\n\n    The U.S. Air Force is looking to send its " ++
  "entire A-10 Warthog fleet to retirement sooner than planned and is also axing the " ++
  "E-7 Wedgetail program, citing cost and delays. This is part of a major fleet " ++
  "shakeup in the 2026 budget proposal that also shuffles F-16s and F-15s, while " ++
  "boosting funds for the B-21 Raider and Sentinel ICBM. The whole plan depends on a " ++
  "budget bill passing, otherwise the Space Force might have to tighten its belt. " ++
  "([more](" ++ url ++ "))\n    "

/-- The full prompt f-string of `get_ai_summary`, with the oversized content
already truncated to 15000 characters. -/
def aiPrompt (title content url : String) : String :=
  aiPromptHead ++ title ++ aiPromptAfterTitle ++ url ++ aiPromptAfterUrl ++
  truncatedContent content ++ aiPromptTail url

/-- The suffix of `hay` after the first occurrence of `needle`
(`None` when `needle` does not occur): the scanning core of `re.search`
with a literal-prefixed pattern. -/
def subAfterFirst (needle : List Char) : List Char → Option (List Char)
  | [] => if needle = [] then some [] else none
  | c :: rest =>
    if needle.isPrefixOf (c :: rest) then some ((c :: rest).drop needle.length)
    else subAfterFirst needle rest

/-- Models `re.search(r"HEADLINE:\s*(.*)", raw_output)`, group 1: after the first
`HEADLINE:`, the greedy `\s*` swallows all whitespace and `(.*)` captures up
to the end of that line. -/
def searchHeadline (raw : String) : Option String :=
  (subAfterFirst "HEADLINE:".data raw.data).map
    (fun rest => ⟨(rest.dropWhile Char.isWhitespace).takeWhile (fun c => c ≠ '\n')⟩)

/-- Models `re.search(r"SUMMARY_BODY:\s*([\s\S]*)", raw_output)`, group 1: after
the first `SUMMARY_BODY:`, skip whitespace and capture everything to the
end of the string. -/
def searchSummaryBody (raw : String) : Option String :=
  (subAfterFirst "SUMMARY_BODY:".data raw.data).map
    (fun rest => ⟨rest.dropWhile Char.isWhitespace⟩)

/-- Models `re.sub` of the pattern whitespace-stars-whitespace-🎯: when the string starts
with whitespace, a star run and more whitespace followed by the 🎯 emoji,
that prefix collapses to the bare emoji; otherwise the string is unchanged. -/
def cleanupSummaryBody (s : String) : String :=
  let rest := ((s.data.dropWhile Char.isWhitespace).dropWhile (fun c => c = '*')).dropWhile
    Char.isWhitespace
  match rest with
  | '🎯' :: tail => ⟨'🎯' :: tail⟩
  | _ => s

/-- Environment of one `get_ai_summary` call: the `OPENAI_API_KEY` lookup
and the outcome of the `chat.completions.create` call (`.ok` carries the
model's message content, `.error` the text of the raised exception).
Client construction (`openai.OpenAI(api_key=...)`) performs no I/O and is
modelled as non-failing. -/
structure AIEnv where
  apiKey : Option String
  chatResult : Except String String
deriving Repr

/-- Embeds `get_ai_summary title content url`: the returned Python dict as an
association list.  Every branch — missing key, API exception, unparseable
output — produces a two-entry dict; no branch raises. -/
def get_ai_summary (env : AIEnv) (title content url : String) : List (String × String) :=
  match env.apiKey with
  | none =>
    [("title", "AI Service Disabled"),
     ("summary_body", "🎯 **AI Service Disabled**\n\nOpenAI API key not configured. " ++
        "Please set the OPENAI_API_KEY environment variable. ([more](#))")]
  | some _ =>
    -- the prompt sent as the user message:
    let _prompt := aiPrompt title content url
    match env.chatResult with
    | .error e =>
      [("title", "Error"),
       ("summary_body", "🎯 **Error**\n\nError generating summary: " ++ e ++ " ([more](#))")]
    | .ok rawMessage =>
      let raw_output := pyStrip rawMessage
      let headline :=
        match searchHeadline raw_output with
        | some m => pyStrip m
        | none => "No headline found"
      let parsedBody :=
        match searchSummaryBody raw_output with
        | some m => pyStrip m
        | none => "Could not generate summary body."
      let summary_body := cleanupSummaryBody parsedBody
      [("title", headline), ("summary_body", summary_body)]

/-- Outcome of `web_scraper.fetch_and_parse_url`: `.ok` carries the Python
return value (`None` on a caught `RequestException`, otherwise the cleaned
text, possibly empty), `.error` a propagated exception's text. -/
abbrev ScrapeOutcome := Except String (Option String)

/-- An endpoint result: `.ok` the response model, `.error` an
`HTTPException (status_code, detail)`. -/
abbrev ApiResponse (α : Type) := Except (Nat × String) α

/-- Embeds `POST /summarize` (`summarize_article` in `main.py`), with the scraper
and AI-service outcomes passed explicitly.  Note: the
`HTTPException(400, ...)` raised in the empty-content branch is itself
caught by the surrounding `except Exception` handler, which updates the row
a second time and re-raises with status 500. -/
def summarize_article (db : ArticlesDB) (article_id : Nat) (scrape : ScrapeOutcome)
    (ai : Except String (List (String × String))) : ApiResponse Article × ArticlesDB :=
  match get_article_by_id db article_id with
  | none => (.error (404, "Article not found."), db)
  | some _article =>
    match scrape with
    | .error e =>
      let error_message := "Scraping error: " ++ e
      let (_, db₁) := update_article db article_id
        [.status "scraping_failed", .summary (some error_message)]
      (.error (500, error_message), db₁)
    | .ok contentOpt =>
      if contentOpt.getD "" = "" then
        let (_, db₁) := update_article db article_id
          [.status "scraping_failed", .summary (some "No content found at URL.")]
        let error_message :=
          "Scraping error: 400: Failed to fetch or parse article content: No content found."
        let (_, db₂) := update_article db₁ article_id
          [.status "scraping_failed", .summary (some error_message)]
        (.error (500, error_message), db₂)
      else
        let content := contentOpt.getD ""
        match ai with
        | .error e =>
          let error_message := "AI service error: " ++ e
          let (_, db₁) := update_article db article_id
            [.status "ai_failed", .summary (some error_message)]
          (.error (500, error_message), db₁)
        | .ok ai_data =>
          let (updated, db₁) := update_article db article_id
            [.title (ai_data.lookup "title"), .summary (ai_data.lookup "summary_body"),
             .original_content (some content), .status "summarized"]
          match updated with
          | none => (.error (500, "Failed to update article after summarization."), db₁)
          | some u => (.ok u, db₁)

/-- Embeds `POST /summarize` with the AI step instantiated by the embedded
`get_ai_summary` (never an exception), as in the running program. -/
def summarize_article_live (db : ArticlesDB) (article_id : Nat) (scrape : ScrapeOutcome)
    (env : AIEnv) : ApiResponse Article × ArticlesDB :=
  match get_article_by_id db article_id with
  | none => summarize_article db article_id scrape (.error "unreached")
  | some article =>
    let content := (match scrape with | .ok (some c) => c | _ => "")
    summarize_article db article_id scrape
      (.ok (get_ai_summary env (article.title.getD "") content article.url))

/-- Embeds `POST /summarize-manual` (`summarize_article_manual` in `main.py`).
The empty-content branch updates the row to `content_failed` *before*
raising the 400. -/
def summarize_article_manual (db : ArticlesDB) (article_id : Nat) (manual_content : String)
    (ai : Except String (List (String × String))) : ApiResponse Article × ArticlesDB :=
  match get_article_by_id db article_id with
  | none => (.error (404, "Article not found."), db)
  | some _article =>
    let content := pyStrip manual_content
    if content = "" then
      let (_, db₁) := update_article db article_id
        [.status "content_failed", .summary (some "No manual content provided.")]
      (.error (400, "Manual content cannot be empty."), db₁)
    else
      match ai with
      | .error e =>
        let error_message := "AI service error: " ++ e
        let (_, db₁) := update_article db article_id
          [.status "ai_failed", .summary (some error_message)]
        (.error (500, error_message), db₁)
      | .ok ai_data =>
        let (updated, db₁) := update_article db article_id
          [.title (ai_data.lookup "title"), .summary (ai_data.lookup "summary_body"),
           .original_content (some content), .status "summarized"]
        match updated with
        | none => (.error (500, "Failed to update article after summarization."), db₁)
        | some u => (.ok u, db₁)

/-- Embeds `POST /highlight-manual` (`highlight_snapshot_manual` in `main.py`).
The empty-content branch raises 400 with no database write.  The inline
OpenAI call is modelled by `AIEnv` exactly as in `get_ai_summary`; the
`HTTPException(500)` raised when the highlight is empty is caught by the
outer handler and re-raised re-wrapped. -/
def highlight_snapshot_manual (db : SnapshotsDB) (snapshot_id : Nat) (mc : String)
    (env : AIEnv) : ApiResponse Snapshot × SnapshotsDB :=
  match get_snapshot_by_id db snapshot_id with
  | none => (.error (404, "Snapshot not found."), db)
  | some _snapshot =>
    let manual_content := pyStrip mc
    if manual_content = "" then
      (.error (400, "Manual content cannot be empty."), db)
    else
      let highlight :=
        match env.apiKey with
        | none => "🚩 Unable to generate highlight - OpenAI API key not configured."
        | some _ =>
          match env.chatResult with
          | .ok raw => pyStrip raw
          | .error e => "▶ Error generating highlight: " ++ e
      if pyStrip highlight = "" then
        (.error (500, "AI highlighting failed: 500: AI service failed to generate highlight."),
          db)
      else
        match update_snapshot_highlight db snapshot_id highlight manual_content with
        | (false, db₁) => (.error (500, "Failed to update snapshot in database."), db₁)
        | (true, db₁) =>
          match get_snapshot_by_id db₁ snapshot_id with
          | some s => (.ok s, db₁)
          | none => (.error (500, "Failed to update snapshot in database."), db₁)

/-- Embeds `admin_app.format_summary_for_export`:
`(row.get('summary') or '').strip()`. -/
def format_summary_for_export (row : Article) : String :=
  pyStrip (row.summary.getD "")

/-- The fixed separator appended after each article in the tab-5 export
loop. -/
def exportSeparator : String := "\n\n---\n\n"

/-- The tab-5 export loop:
`final_content += format_summary_for_export(article) + "\n\n---\n\n"`
over the already-filtered, already-ordered accepted list. -/
def assembleNewsletter (accepted_articles : List Article) : String :=
  accepted_articles.foldl
    (fun final_content article =>
      final_content ++ format_summary_for_export article ++ exportSeparator)
    ""

/-- The `'accepted'` filter applied in tab 5 before assembly. -/
def acceptedArticles (db : ArticlesDB) : List Article :=
  (fetch_all_articles db).filter (fun a => a.status = "accepted")

/-- Direction argument of `admin_app.move_article`. -/
inductive MoveDirection where
  | up
  | down
deriving Repr, DecidableEq

/-- The tuple swap
`ordered_ids[i], ordered_ids[i+1] = ordered_ids[i+1], ordered_ids[i]`:
exchanges the entries at positions `n` and `n + 1`. -/
def swapAdjacent : List Nat → Nat → List Nat
  | x :: y :: rest, 0 => y :: x :: rest
  | x :: rest, n + 1 => x :: swapAdjacent rest n
  | l, _ => l

/-- Embeds `admin_app.move_article`: fetches the active articles in position
order, swaps the moved article's id with its neighbour, then reassigns
`position = index` (0-based `enumerate`) to every id in the new order.
Out-of-list ids and boundary moves return with no write. -/
def move_article (db : ArticlesDB) (article_id : Nat) (direction : MoveDirection) :
    ArticlesDB :=
  let articles := fetch_all_articles db
  let ordered_ids := articles.map (·.id)
  match ordered_ids.findIdx? (fun i => i = article_id) with
  | none => db
  | some current_index =>
    match direction with
    | .up =>
      if 0 < current_index then
        { db with rows := assignPositions db.rows 0 (swapAdjacent ordered_ids (current_index - 1)) }
      else db
    | .down =>
      if current_index < ordered_ids.length - 1 then
        { db with rows := assignPositions db.rows 0 (swapAdjacent ordered_ids current_index) }
      else db

/-- The operations of claim C1 on the article set, driven through the
endpoints/UI actions: `POST /articles` (status defaults to `'pending'`),
the admin move-up/move-down buttons, and `DELETE /articles/id`. -/
inductive ArticleOp where
  | create (url : String) (title source summary : Option String)
  | move (article_id : Nat) (direction : MoveDirection)
  | delete (article_id : Nat)
deriving Repr, DecidableEq

/-- Apply one operation to the article table. -/
def applyArticleOp (db : ArticlesDB) : ArticleOp → ArticlesDB
  | .create url title source summary => (add_article db url title source summary "pending").2
  | .move article_id direction => move_article db article_id direction
  | .delete article_id => (delete_article db article_id).2

/-- The freshly initialised `Articles` table (SQLite row ids start at 1). -/
def emptyArticlesDB : ArticlesDB := { rows := [], nextId := 1 }

/-- Run a sequence of operations from the empty table. -/
def runArticleOps (ops : List ArticleOp) : ArticlesDB :=
  ops.foldl applyArticleOp emptyArticlesDB

/-- The positions of the non-archived articles, in row order. -/
def activePositions (db : ArticlesDB) : List Nat :=
  (db.rows.filter isActive).map (·.position)

/-- Reachability invariant of the article table under create/move/delete
sequences from the empty table: unique row ids below the autoincrement
counter, every row still `pending` (none of the three operations
archives), and the position multiset a contiguous block of consecutive
integers starting at 0 or 1. -/
def dbWF (db : ArticlesDB) : Prop :=
  (db.rows.map (·.id)).Nodup ∧
  (∀ a ∈ db.rows, a.id < db.nextId) ∧
  (∀ a ∈ db.rows, a.status = "pending") ∧
  ∃ k ≤ 1, (db.rows.map (·.position)).Perm (List.range' k db.rows.length)

/-- The concrete operation sequence of the C1 counterexample: two imports
followed by one admin move-up. -/
def c1OpsEx : List ArticleOp :=
  [ArticleOp.create "u1" none none none, ArticleOp.create "u2" none none none,
   ArticleOp.move 2 MoveDirection.up]

/-- Example article used by concrete instantiations of the theorems. -/
def mkArticle (id : Nat) (url : String) (status : String) (position : Nat) : Article :=
  { id := id, url := url, title := none, source := none, summary := none,
    original_content := none, status := status, position := position }

/-- Example snapshot used by concrete instantiations of the theorems. -/
def mkSnapshot (id : Nat) (url : String) (status : String) (position : Nat) : Snapshot :=
  { id := id, url := url, title := "", source := "", highlight := "",
    original_content := none, status := status, position := position }

/-- Snapshot table with one active and one archived row, the archived one
holding the higher position. -/
def snapDbTopEx : SnapshotsDB :=
  { rows := [mkSnapshot 1 "a" "accepted" 1, mkSnapshot 2 "b" "archived" 2], nextId := 3 }

/-- Article table whose only row is archived at position 5. -/
def articlesDbArchivedEx : ArticlesDB :=
  { rows := [mkArticle 1 "a" "archived" 5], nextId := 2 }

/-- Article table with a single pending article. -/
def articlesDbPendingEx : ArticlesDB :=
  { rows := [mkArticle 1 "u1" "pending" 1], nextId := 2 }

-- ------------------------------------------------------------------
-- generic lemmas about the embedded store primitives
-- ------------------------------------------------------------------

/-- Running `fetchone` on a key the listed rows hold at most once returns the row
carrying it. -/
theorem find?_key_eq_some {α β : Type} [DecidableEq β] (key : α → β) {rows : List α} {a : α}
    (hnd : (rows.map key).Nodup) (hmem : a ∈ rows) :
    rows.find? (fun x => key x = key a) = some a := by
  induction rows with
  | nil => cases hmem
  | cons b rest ih =>
    rw [List.map_cons, List.nodup_cons] at hnd
    rcases List.mem_cons.mp hmem with h | h
    · subst h
      exact List.find?_cons_of_pos _ (by simp)
    · have hne : key b ≠ key a := by
        intro he
        exact hnd.1 (he ▸ List.mem_map_of_mem key h)
      rw [List.find?_cons_of_neg _ (by simpa using hne)]
      exact ih hnd.2 h

/-- A membership-based inversion for `find?` results. -/
theorem find?_of_exists {α : Type} {p : α → Bool} {rows : List α}
    (h : ∃ x ∈ rows, p x = true) : ∃ r, rows.find? p = some r ∧ p r = true := by
  have hs : (rows.find? p).isSome = true := List.find?_isSome.mpr h
  rcases Option.isSome_iff_exists.mp hs with ⟨r, hr⟩
  exact ⟨r, hr, List.find?_some hr⟩

/-- Re-fetching by id after an id-preserving per-row update finds a row
with the looked-up id. -/
theorem find?_id_map_of_mem {rows : List Article} {a : Article} (g : Article → Article)
    (hg : ∀ x, (g x).id = x.id) (hmem : a ∈ rows) :
    ∃ r, (rows.map g).find? (fun x => x.id = a.id) = some r ∧ r.id = a.id := by
  have hmem' : g a ∈ rows.map g := List.mem_map_of_mem g hmem
  have hex : ∃ x ∈ rows.map g, (fun x : Article => decide (x.id = a.id)) x = true :=
    ⟨g a, hmem', by simp [hg a]⟩
  rcases find?_of_exists hex with ⟨r, hr, hpr⟩
  exact ⟨r, hr, by simpa using hpr⟩

-- ------------------------------------------------------------------
-- C7: export assembly
-- ------------------------------------------------------------------

/-- The export loop is the separator-terminated join of the formatted
summaries. -/
theorem assembleNewsletter_eq_join (l : List Article) :
    assembleNewsletter l =
      String.join (l.map (fun a => format_summary_for_export a ++ exportSeparator)) := by
  unfold assembleNewsletter String.join
  rw [List.foldl_map]
  have hfun :
      (fun (x : String) (y : Article) =>
          x ++ (format_summary_for_export y ++ exportSeparator)) =
        (fun (final_content : String) (article : Article) =>
          final_content ++ format_summary_for_export article ++ exportSeparator) := by
    funext x y
    rw [String.append_assoc]
  rw [hfun]

/-- Shifting the accumulator out of a `foldl` of string appends. -/
theorem stringFoldlAppend_shift (l : List String) :
    ∀ a : String, List.foldl (· ++ ·) a l = a ++ List.foldl (· ++ ·) "" l := by
  induction l with
  | nil =>
    intro a
    exact (String.append_empty a).symm
  | cons c cs ih =>
    intro a
    simp only [List.foldl_cons]
    rw [ih (a ++ c), ih ("" ++ c), String.empty_append, String.append_assoc]

/-- Unfolds `String.join` on a cons. -/
theorem stringJoin_cons (s : String) (l : List String) :
    String.join (s :: l) = s ++ String.join l := by
  unfold String.join
  simp only [List.foldl_cons, String.empty_append]
  exact stringFoldlAppend_shift l s

/-- Lemma: `String.join` distributes over list concatenation. -/
theorem stringJoin_append (xs ys : List String) :
    String.join (xs ++ ys) = String.join xs ++ String.join ys := by
  induction xs with
  | nil =>
    show String.join ys = String.join [] ++ String.join ys
    exact (String.empty_append _).symm
  | cons s rest ih =>
    rw [List.cons_append, stringJoin_cons, ih, stringJoin_cons, String.append_assoc]

/-- C7: the export assembly is a pure function of the given ordered list:
its output is exactly the items' pre-formatted summary fields, each
followed by the fixed separator, concatenated in the given order (the join
characterization), and a prefix of the input contributes exactly a prefix
of the output (the append homomorphism) — so nothing is re-sorted or
re-filtered.  Determinism over equal inputs is intrinsic: the assembler is
a function of the list alone. -/
theorem claim_c7_export_assembly :
    (∀ l : List Article,
      assembleNewsletter l =
        String.join (l.map (fun a => format_summary_for_export a ++ exportSeparator))) ∧
    (∀ l₁ l₂ : List Article,
      assembleNewsletter (l₁ ++ l₂) = assembleNewsletter l₁ ++ assembleNewsletter l₂) := by
  constructor
  · exact assembleNewsletter_eq_join
  · intro l₁ l₂
    rw [assembleNewsletter_eq_join, assembleNewsletter_eq_join, assembleNewsletter_eq_join,
      List.map_append, stringJoin_append]

-- ------------------------------------------------------------------
-- C9: bounded truncation before the model call
-- ------------------------------------------------------------------

/-- C9: the content interpolated into the summarization prompt is
`content[:15000]`, whose length never exceeds 15000 characters, whatever
the supplied content. -/
theorem claim_c9_truncation :
    ∀ title content url : String,
      (truncatedContent content).length ≤ 15000 ∧
      ∃ pre post : String,
        aiPrompt title content url = pre ++ truncatedContent content ++ post := by
  intro title content url
  constructor
  · show (content.data.take 15000).length ≤ 15000
    rw [List.length_take]
    exact inf_le_left
  · exact ⟨aiPromptHead ++ title ++ aiPromptAfterTitle ++ url ++ aiPromptAfterUrl,
      aiPromptTail url, rfl⟩

-- ------------------------------------------------------------------
-- C2 / C3 / C8: create, conflict, resurrection, fresh insert
-- ------------------------------------------------------------------

/-- A row transformation preserving a key leaves the mapped key column
unchanged. -/
theorem map_key_map_of_preserve {α β : Type} (key : α → β) (g : α → α)
    (hg : ∀ x, key (g x) = key x) (rows : List α) :
    (rows.map g).map key = rows.map key := by
  rw [List.map_map]
  exact List.map_congr_left (fun x _ => hg x)

/-- C2: creating with the URL of an active row of the same type is a
conflict (`None` returned, table unchanged); creating with the URL of an
archived row returns that same row's id again — no new row, autoincrement
counter untouched.  The hypothesis that no two rows share a URL is the
table's uniqueness constraint (enforced by the schema; `add_article`
guards the insert with an `IntegrityError` safeguard). -/
theorem claim_c2_url_uniqueness :
    (∀ (db : ArticlesDB) (a : Article) (title source summary : Option String) (status : String),
      (db.rows.map (·.url)).Nodup → a ∈ db.rows → isActive a = true →
      add_article db a.url title source summary status = (none, db)) ∧
    (∀ (db : ArticlesDB) (a : Article) (title source summary : Option String) (status : String),
      (db.rows.map (·.url)).Nodup → a ∈ db.rows → a.status = "archived" →
      ∃ r, (add_article db a.url title source summary status).1 = some r ∧ r.id = a.id ∧
        (add_article db a.url title source summary status).2.rows.length = db.rows.length ∧
        (add_article db a.url title source summary status).2.nextId = db.nextId) ∧
    (∀ (db : SnapshotsDB) (sn : Snapshot) (title source highlight status : String),
      (db.rows.map (·.url)).Nodup → sn ∈ db.rows → isActiveSnap sn = true →
      add_snapshot db sn.url title source highlight status = (none, db)) ∧
    (∀ (db : SnapshotsDB) (sn : Snapshot) (title source highlight status : String),
      (db.rows.map (·.url)).Nodup → sn ∈ db.rows → sn.status = "archived" →
      ∃ r, (add_snapshot db sn.url title source highlight status).1 = some r ∧ r.id = sn.id ∧
        (add_snapshot db sn.url title source highlight status).2.rows.length = db.rows.length ∧
        (add_snapshot db sn.url title source highlight status).2.nextId = db.nextId) := by
  refine ⟨?_, ?_, ?_, ?_⟩
  · intro db a title source summary status hnd hmem hact
    have hne : a.status ≠ "archived" := by
      simpa [isActive] using hact
    unfold add_article
    rw [find?_key_eq_some (fun x : Article => x.url) hnd hmem]
    simp only [if_neg hne]
  · intro db a title source summary status hnd hmem hstat
    unfold add_article
    rw [find?_key_eq_some (fun x : Article => x.url) hnd hmem]
    simp only [if_pos hstat]
    have hg : ∀ x : Article,
        ((fun x : Article =>
          if x.id = a.id then
            { x with status := "pending", position := maxPosActiveArticles db.rows + 1 }
          else x) x).id = x.id := by
      intro x
      by_cases h : x.id = a.id <;> simp [h]
    rcases find?_id_map_of_mem _ hg hmem with ⟨r, hr, hid⟩
    refine ⟨r, ?_, hid, ?_, ?_⟩
    · exact hr
    · simp
    · trivial
  · intro db sn title source highlight status hnd hmem hact
    have hne : sn.status ≠ "archived" := by
      simpa [isActiveSnap] using hact
    unfold add_snapshot
    rw [find?_key_eq_some (fun x : Snapshot => x.url) hnd hmem]
    simp only [if_neg hne]
  · intro db sn title source highlight status hnd hmem hstat
    unfold add_snapshot
    rw [find?_key_eq_some (fun x : Snapshot => x.url) hnd hmem]
    simp only [if_pos hstat]
    rw [List.map_map]
    have hurl₂ : ∀ x : Snapshot,
        ((snapShiftDown sn.url ∘ snapUnarchiveSet sn.url) x).url = x.url := by
      intro x
      by_cases h1 : x.url = sn.url <;> by_cases h2 : 1 ≤ x.position <;>
        simp [snapShiftDown, snapUnarchiveSet, Function.comp, h1, h2]
    have hnd₂ : ((db.rows.map (snapShiftDown sn.url ∘ snapUnarchiveSet sn.url)).map
        (fun x : Snapshot => x.url)).Nodup := by
      rw [map_key_map_of_preserve (fun x : Snapshot => x.url) _ hurl₂ db.rows]
      exact hnd
    have hmem' := List.mem_map_of_mem (snapShiftDown sn.url ∘ snapUnarchiveSet sn.url) hmem
    have hkey := find?_key_eq_some (fun x : Snapshot => x.url) hnd₂ hmem'
    simp only [hurl₂ sn] at hkey
    refine ⟨_, hkey, ?_, ?_, ?_⟩
    · simp [snapShiftDown, snapUnarchiveSet, Function.comp, hstat]
    · simp
    · trivial

/-- C2 witness: concrete instances of both the conflict and the
resurrection behaviour. -/
theorem claim_c2_witness :
    add_article articlesDbPendingEx "u1" none none none "pending" =
      (none, articlesDbPendingEx) ∧
    ∃ r, (add_snapshot snapDbTopEx "b" "" "" "" "pending").1 = some r ∧ r.id = 2 ∧
      (add_snapshot snapDbTopEx "b" "" "" "" "pending").2.rows.length =
        snapDbTopEx.rows.length ∧
      (add_snapshot snapDbTopEx "b" "" "" "" "pending").2.nextId = snapDbTopEx.nextId := by
  constructor
  · exact claim_c2_url_uniqueness.1 articlesDbPendingEx (mkArticle 1 "u1" "pending" 1)
      none none none "pending" (by decide) (by decide) (by decide)
  · exact claim_c2_url_uniqueness.2.2.2 snapDbTopEx (mkSnapshot 2 "b" "archived" 2)
      "" "" "" "pending" (by decide) (by decide) (by decide)

/-- Re-fetching by id after an id-preserving per-row update, on a table
with unique ids, returns exactly the updated row. -/
theorem find?_id_map_eq_of_nodup {rows : List Article} {a : Article} (g : Article → Article)
    (hg : ∀ x, (g x).id = x.id) (hnd : (rows.map (·.id)).Nodup) (hmem : a ∈ rows) :
    (rows.map g).find? (fun x => x.id = a.id) = some (g a) := by
  have hnd' : ((rows.map g).map (fun x : Article => x.id)).Nodup := by
    rw [map_key_map_of_preserve (fun x : Article => x.id) g hg]
    exact hnd
  have hkey := find?_key_eq_some (fun x : Article => x.id) hnd' (List.mem_map_of_mem g hmem)
  simpa [hg a] using hkey

/-- C3 counterexample: in a snapshot table with an active row at position 1
and an archived row (url `b`), re-adding url `b` resurrects it at position
1 — not at `max(active positions) + 1 = 2` as the claim states for every
entity type. -/
theorem claim_c3_counterexample :
    ¬ ((add_snapshot snapDbTopEx "b" "" "" "" "pending").1.map (·.position) =
        some (maxPosActiveSnapshots snapDbTopEx.rows + 1)) := by
  decide

/-- C3 (amended): resurrection resets the status to `pending` for both
entity types, but the placement differs: a resurrected *article* goes to
the end of the active ordering (`max(active positions) + 1`), while a
resurrected *snapshot* goes to the top (position 1), every other row with
a position ≥ 1 being shifted down by one. -/
theorem claim_c3_amended :
    (∀ (db : ArticlesDB) (a : Article) (title source summary : Option String) (status : String),
      (db.rows.map (·.url)).Nodup → (db.rows.map (·.id)).Nodup →
      a ∈ db.rows → a.status = "archived" →
      (add_article db a.url title source summary status).1 =
        some { a with status := "pending", position := maxPosActiveArticles db.rows + 1 }) ∧
    (∀ (db : SnapshotsDB) (sn : Snapshot) (title source highlight status : String),
      (db.rows.map (·.url)).Nodup → sn ∈ db.rows → sn.status = "archived" →
      (add_snapshot db sn.url title source highlight status).1 =
        some { sn with status := "pending", position := 1 } ∧
      (∀ x ∈ db.rows, x.url ≠ sn.url → 1 ≤ x.position →
        { x with position := x.position + 1 } ∈
          (add_snapshot db sn.url title source highlight status).2.rows)) := by
  constructor
  · intro db a title source summary status hndUrl hndId hmem hstat
    unfold add_article
    rw [find?_key_eq_some (fun x : Article => x.url) hndUrl hmem]
    simp only [if_pos hstat]
    have hgid : ∀ x : Article,
        ((fun x : Article =>
          if x.id = a.id then
            { x with status := "pending", position := maxPosActiveArticles db.rows + 1 }
          else x) x).id = x.id := by
      intro x
      by_cases h : x.id = a.id <;> simp [h]
    rw [find?_id_map_eq_of_nodup _ hgid hndId hmem]
    simp
  · intro db sn title source highlight status hnd hmem hstat
    unfold add_snapshot
    rw [find?_key_eq_some (fun x : Snapshot => x.url) hnd hmem]
    simp only [if_pos hstat]
    rw [List.map_map]
    have hurl₂ : ∀ x : Snapshot,
        ((snapShiftDown sn.url ∘ snapUnarchiveSet sn.url) x).url = x.url := by
      intro x
      by_cases h1 : x.url = sn.url <;> by_cases h2 : 1 ≤ x.position <;>
        simp [snapShiftDown, snapUnarchiveSet, Function.comp, h1, h2]
    have hnd₂ : ((db.rows.map (snapShiftDown sn.url ∘ snapUnarchiveSet sn.url)).map
        (fun x : Snapshot => x.url)).Nodup := by
      rw [map_key_map_of_preserve (fun x : Snapshot => x.url) _ hurl₂ db.rows]
      exact hnd
    have hmem' := List.mem_map_of_mem (snapShiftDown sn.url ∘ snapUnarchiveSet sn.url) hmem
    have hkey := find?_key_eq_some (fun x : Snapshot => x.url) hnd₂ hmem'
    simp only [hurl₂ sn] at hkey
    constructor
    · rw [hkey]
      simp [snapShiftDown, snapUnarchiveSet, Function.comp]
    · intro x hx hne hpos
      have himg : (snapShiftDown sn.url ∘ snapUnarchiveSet sn.url) x =
          { x with position := x.position + 1 } := by
        simp [snapShiftDown, snapUnarchiveSet, Function.comp, hne, hpos]
      have := List.mem_map_of_mem (snapShiftDown sn.url ∘ snapUnarchiveSet sn.url) hx
      rw [himg] at this
      exact this

/-- C3 witness: the article in `articlesDbArchivedEx` resurrects at the end
(here position 1, the active set being empty); the snapshot in
`snapDbTopEx` resurrects at position 1 with the active row shifted to 2. -/
theorem claim_c3_witness :
    (add_article articlesDbArchivedEx "a" none none none "pending").1 =
      some (mkArticle 1 "a" "pending" 1) ∧
    (add_snapshot snapDbTopEx "b" "" "" "" "pending").1 =
      some (mkSnapshot 2 "b" "pending" 1) ∧
    mkSnapshot 1 "a" "accepted" 2 ∈ (add_snapshot snapDbTopEx "b" "" "" "" "pending").2.rows := by
  refine ⟨?_, ?_, ?_⟩
  · exact claim_c3_amended.1 articlesDbArchivedEx (mkArticle 1 "a" "archived" 5)
      none none none "pending" (by decide) (by decide) (by decide) (by decide)
  · exact (claim_c3_amended.2 snapDbTopEx (mkSnapshot 2 "b" "archived" 2)
      "" "" "" "pending" (by decide) (by decide) (by decide)).1
  · exact (claim_c3_amended.2 snapDbTopEx (mkSnapshot 2 "b" "archived" 2)
      "" "" "" "pending" (by decide) (by decide) (by decide)).2
      (mkSnapshot 1 "a" "accepted" 1) (by decide) (by decide) (by decide)

/-- C8 counterexample: the only article is archived at position 5, so the
claim predicts the fresh insert lands at position 1 (`max` over the empty
active set plus one); the code computes `MAX(position)` over *all* rows and
inserts at position 6. -/
theorem claim_c8_counterexample :
    ¬ ((add_article articlesDbArchivedEx "b" none none none "pending").1.map (·.position) =
        some (maxPosActiveArticles articlesDbArchivedEx.rows + 1)) := by
  decide

/-- C8 (amended): a fresh *snapshot* insert receives
`max(position over non-archived rows) + 1` as the claim states, but a
fresh *article* insert receives `max(position over ALL rows, archived
included) + 1` — the two coincide only while no archived article holds a
position above the active maximum. -/
theorem claim_c8_amended :
    (∀ (db : ArticlesDB) (url : String) (title source summary : Option String)
        (status : String),
      (∀ a ∈ db.rows, a.url ≠ url) → (∀ a ∈ db.rows, a.id ≠ db.nextId) →
      (add_article db url title source summary status).1 =
        some { id := db.nextId, url := url, title := title, source := source,
               summary := summary, original_content := none, status := status,
               position := maxPosAllArticles db.rows + 1 }) ∧
    (∀ (db : SnapshotsDB) (url title source highlight status : String),
      (∀ sn ∈ db.rows, sn.url ≠ url) → (∀ sn ∈ db.rows, sn.id ≠ db.nextId) →
      (add_snapshot db url title source highlight status).1 =
        some { id := db.nextId, url := url, title := title, source := source,
               highlight := highlight, original_content := none, status := status,
               position := maxPosActiveSnapshots db.rows + 1 }) := by
  constructor
  · intro db url title source summary status hurl hid
    unfold add_article
    have hnone : db.rows.find? (fun x => x.url = url) = none :=
      List.find?_eq_none.mpr (fun x hx => by simpa using hurl x hx)
    rw [hnone]
    have hnone₂ : db.rows.find? (fun x => x.id = db.nextId) = none :=
      List.find?_eq_none.mpr (fun x hx => by simpa using hid x hx)
    simp [List.find?_append, hnone₂]
  · intro db url title source highlight status hurl hid
    unfold add_snapshot
    have hnone : db.rows.find? (fun x => x.url = url) = none :=
      List.find?_eq_none.mpr (fun x hx => by simpa using hurl x hx)
    rw [hnone]
    have hnone₂ : db.rows.find? (fun x => x.id = db.nextId) = none :=
      List.find?_eq_none.mpr (fun x hx => by simpa using hid x hx)
    simp [List.find?_append, hnone₂]

/-- C8 witness: the fresh article lands at 6 (= max over all rows + 1, the
archived row sitting at 5); the fresh snapshot lands at 2 (= max over the
active rows + 1). -/
theorem claim_c8_witness :
    (add_article articlesDbArchivedEx "b" none none none "pending").1 =
      some { id := 2, url := "b", title := none, source := none, summary := none,
             original_content := none, status := "pending", position := 6 } ∧
    (add_snapshot snapDbTopEx "c" "" "" "" "pending").1 =
      some { id := 3, url := "c", title := "", source := "", highlight := "",
             original_content := none, status := "pending", position := 2 } := by
  constructor
  · exact claim_c8_amended.1 articlesDbArchivedEx "b" none none none "pending"
      (by decide) (by decide)
  · exact claim_c8_amended.2 snapDbTopEx "c" "" "" "" "pending" (by decide) (by decide)

-- ------------------------------------------------------------------
-- C4 / C5 / C6: manual-content validation, AI failure, scraping failure
-- ------------------------------------------------------------------

/-- No `update_article` field writes the id column. -/
theorem setArticleField_id (a : Article) (f : ArticleField) : (setArticleField a f).id = a.id := by
  cases f <;> rfl

/-- Applying a whole field list preserves the id. -/
theorem foldl_setArticleField_id (fields : List ArticleField) (a : Article) :
    (fields.foldl setArticleField a).id = a.id := by
  induction fields generalizing a with
  | nil => rfl
  | cons f rest ih => rw [List.foldl_cons, ih, setArticleField_id]

/-- When the row exists, `update_article` rewrites exactly that row with
the field list (the `rowcount == 0` branch is not taken). -/
theorem update_article_rows_of_mem {db : ArticlesDB} {article_id : Nat}
    {fields : List ArticleField} (hne : fields ≠ [])
    (hmem : ∃ a ∈ db.rows, a.id = article_id) :
    (update_article db article_id fields).2.rows =
      db.rows.map (fun a =>
        if a.id = article_id then fields.foldl setArticleField a else a) := by
  unfold update_article
  rw [if_neg hne]
  have hall : ¬ (db.rows.all (fun a => a.id ≠ article_id) = true) := by
    rcases hmem with ⟨a, ha, hid⟩
    intro h
    have := List.all_eq_true.mp h a ha
    simp [hid] at this
  rw [if_neg hall]

/-- Lemma: `update_article` never deletes the row: a row with the updated id is
still present afterwards. -/
theorem update_article_mem_id {db : ArticlesDB} {article_id : Nat}
    {fields : List ArticleField} (hne : fields ≠ [])
    (hmem : ∃ a ∈ db.rows, a.id = article_id) :
    ∃ a' ∈ (update_article db article_id fields).2.rows, a'.id = article_id := by
  rw [update_article_rows_of_mem hne hmem]
  rcases hmem with ⟨a, ha, hid⟩
  refine ⟨(fun a =>
    if a.id = article_id then fields.foldl setArticleField a else a) a,
    List.mem_map_of_mem _ ha, ?_⟩
  simp [foldl_setArticleField_id, hid]

/-- C4 counterexample: submitting whitespace-only manual content for a
pending article does *not* leave the stored state unchanged — the article
is rewritten to `content_failed` with a placeholder summary before the 400
is raised. -/
theorem claim_c4_counterexample :
    (summarize_article_manual articlesDbPendingEx 1 "   " (.ok [])).2 ≠ articlesDbPendingEx ∧
    ((summarize_article_manual articlesDbPendingEx 1 "   " (.ok [])).2.rows.map (·.status)) =
      ["content_failed"] := by
  decide

/-- C4 (amended): empty (or whitespace-only) manual content is rejected
with a 400 validation error before any summarization; for the *snapshot*
path the stored state is completely unchanged, but for the *article* path
the row's status is set to `content_failed` and its summary to
`'No manual content provided.'` (all other columns, `original_content`
included, unchanged) before the 400 is raised. -/
theorem claim_c4_amended :
    (∀ (db : SnapshotsDB) (snapshot_id : Nat) (mc : String) (env : AIEnv),
      (get_snapshot_by_id db snapshot_id).isSome → pyStrip mc = "" →
      highlight_snapshot_manual db snapshot_id mc env =
        (.error (400, "Manual content cannot be empty."), db)) ∧
    (∀ (db : ArticlesDB) (article_id : Nat) (mc : String)
        (ai : Except String (List (String × String))),
      (get_article_by_id db article_id).isSome → pyStrip mc = "" →
      (summarize_article_manual db article_id mc ai).1 =
        .error (400, "Manual content cannot be empty.") ∧
      (summarize_article_manual db article_id mc ai).2.rows =
        db.rows.map (fun a =>
          if a.id = article_id then
            { a with status := "content_failed",
                     summary := some "No manual content provided." }
          else a)) := by
  constructor
  · intro db snapshot_id mc env hsome hstrip
    rcases Option.isSome_iff_exists.mp hsome with ⟨s, hs⟩
    unfold highlight_snapshot_manual
    rw [hs]
    simp [hstrip]
  · intro db article_id mc ai hsome hstrip
    rcases Option.isSome_iff_exists.mp hsome with ⟨art, hart⟩
    have hmem : ∃ a ∈ db.rows, a.id = article_id := by
      refine ⟨art, List.mem_of_find?_eq_some hart, ?_⟩
      simpa using List.find?_some hart
    unfold summarize_article_manual
    rw [hart]
    simp only [hstrip, if_pos]
    constructor
    · simp
    · rw [update_article_rows_of_mem (by decide) hmem]
      rfl

/-- C4 witness: the snapshot path leaves `snapDbTopEx` untouched; the
article path rejects with 400. -/
theorem claim_c4_witness :
    highlight_snapshot_manual snapDbTopEx 1 " " { apiKey := none, chatResult := .ok "" } =
      (.error (400, "Manual content cannot be empty."), snapDbTopEx) ∧
    (summarize_article_manual articlesDbPendingEx 1 " " (.ok [])).1 =
      .error (400, "Manual content cannot be empty.") := by
  constructor
  · exact claim_c4_amended.1 snapDbTopEx 1 " " { apiKey := none, chatResult := .ok "" }
      (by decide) (by decide)
  · exact (claim_c4_amended.2 articlesDbPendingEx 1 " " (.ok []) (by decide) (by decide)).1

/-- C5: when acquisition succeeded and the generation call raises, the
article is rewritten — not deleted — with status `ai_failed` and the error
text (prefixed `AI service error: `) in its summary field; every other
column, `original_content` included, is untouched, and the response is a
500 carrying the same message. -/
theorem claim_c5_ai_failure :
    ∀ (db : ArticlesDB) (article_id : Nat) (c e : String),
      (get_article_by_id db article_id).isSome → ¬ c = "" →
      (summarize_article db article_id (.ok (some c)) (.error e)).1 =
        .error (500, "AI service error: " ++ e) ∧
      (summarize_article db article_id (.ok (some c)) (.error e)).2.rows =
        db.rows.map (fun a =>
          if a.id = article_id then
            { a with status := "ai_failed", summary := some ("AI service error: " ++ e) }
          else a) ∧
      ∃ a' ∈ (summarize_article db article_id (.ok (some c)) (.error e)).2.rows,
        a'.id = article_id := by
  intro db article_id c e hsome hc
  rcases Option.isSome_iff_exists.mp hsome with ⟨art, hart⟩
  have hmem : ∃ a ∈ db.rows, a.id = article_id := by
    refine ⟨art, List.mem_of_find?_eq_some hart, ?_⟩
    simpa using List.find?_some hart
  unfold summarize_article
  rw [hart]
  simp only [Option.getD_some, if_neg hc]
  refine ⟨?_, ?_, ?_⟩
  · trivial
  · rw [update_article_rows_of_mem (by simp) hmem]
    rfl
  · exact update_article_mem_id (by simp) hmem

/-- C5 witness: a concrete pending article, successful scrape, failing AI
call. -/
theorem claim_c5_witness :
    (summarize_article articlesDbPendingEx 1 (.ok (some "text")) (.error "boom")).1 =
      .error (500, "AI service error: boom") ∧
    ∃ a' ∈ (summarize_article articlesDbPendingEx 1 (.ok (some "text")) (.error "boom")).2.rows,
      a'.id = 1 := by
  refine ⟨?_, ?_⟩
  · exact (claim_c5_ai_failure articlesDbPendingEx 1 "text" "boom" (by decide) (by decide)).1
  · exact (claim_c5_ai_failure articlesDbPendingEx 1 "text" "boom" (by decide) (by decide)).2.2

/-- C6: when acquisition fails during acquire-and-summarize — either the
scraper raised, or it returned no usable content — the article's status
becomes `scraping_failed` and its summary holds the human-readable reason
(`Scraping error: <exception text>`, resp. the no-content message
re-wrapped by the outer exception handler); `original_content` and every
other column are unchanged. -/
theorem claim_c6_scraping_failure :
    ∀ (db : ArticlesDB) (article_id : Nat) (ai : Except String (List (String × String))),
      (get_article_by_id db article_id).isSome →
      (∀ e : String,
        (summarize_article db article_id (.error e) ai).2.rows =
          db.rows.map (fun a =>
            if a.id = article_id then
              { a with status := "scraping_failed",
                       summary := some ("Scraping error: " ++ e) }
            else a)) ∧
      (∀ contentOpt : Option String, contentOpt.getD "" = "" →
        (summarize_article db article_id (.ok contentOpt) ai).2.rows =
          db.rows.map (fun a =>
            if a.id = article_id then
              { a with status := "scraping_failed",
                       summary := some ("Scraping error: 400: " ++
                         "Failed to fetch or parse article content: No content found.") }
            else a)) := by
  intro db article_id ai hsome
  rcases Option.isSome_iff_exists.mp hsome with ⟨art, hart⟩
  have hmem : ∃ a ∈ db.rows, a.id = article_id := by
    refine ⟨art, List.mem_of_find?_eq_some hart, ?_⟩
    simpa using List.find?_some hart
  constructor
  · intro e
    unfold summarize_article
    rw [hart]
    rw [update_article_rows_of_mem (by simp) hmem]
    rfl
  · intro contentOpt hempty
    unfold summarize_article
    rw [hart]
    simp only [hempty, if_pos]
    have hmem₁ : ∃ a ∈ (update_article db article_id
        [ArticleField.status "scraping_failed",
         ArticleField.summary (some "No content found at URL.")]).2.rows,
        a.id = article_id :=
      update_article_mem_id (by simp) hmem
    rw [update_article_rows_of_mem (by simp) hmem₁,
        update_article_rows_of_mem (by simp) hmem, List.map_map]
    apply List.map_congr_left
    intro x _
    by_cases h : x.id = article_id <;>
      simp [Function.comp, h, setArticleField, foldl_setArticleField_id]

/-- C6 witness: both acquisition-failure modes at a concrete article. -/
theorem claim_c6_witness :
    ((summarize_article articlesDbPendingEx 1 (.error "timeout") (.ok [])).2.rows.map
      (fun a => (a.status, a.summary, a.original_content))) =
      [("scraping_failed", some "Scraping error: timeout", none)] ∧
    ((summarize_article articlesDbPendingEx 1 (.ok none) (.ok [])).2.rows.map
      (fun a => (a.status, a.original_content))) = [("scraping_failed", none)] := by
  constructor
  · rw [(claim_c6_scraping_failure articlesDbPendingEx 1 (.ok []) (by decide)).1 "timeout"]
    decide
  · rw [(claim_c6_scraping_failure articlesDbPendingEx 1 (.ok []) (by decide)).2 none
      (by decide)]
    decide

-- ------------------------------------------------------------------
-- C10: totality of the summarization adapter
-- ------------------------------------------------------------------

/-- Any row reached through `update_article` is either an untouched
original row or the field-list rewrite of an original row. -/
theorem mem_update_article_cases {db : ArticlesDB} {article_id : Nat}
    {fields : List ArticleField} {a' : Article}
    (h : a' ∈ (update_article db article_id fields).2.rows) :
    a' ∈ db.rows ∨ ∃ a ∈ db.rows, a' = fields.foldl setArticleField a := by
  unfold update_article at h
  by_cases h1 : fields = []
  · rw [if_pos h1] at h
    exact .inl h
  · rw [if_neg h1] at h
    by_cases h2 : db.rows.all (fun a => a.id ≠ article_id) = true
    · rw [if_pos h2] at h
      exact .inl h
    · rw [if_neg h2] at h
      have h' : a' ∈ db.rows.map (fun a =>
          if a.id = article_id then fields.foldl setArticleField a else a) := h
      rcases List.mem_map.mp h' with ⟨x, hx, hfx⟩
      by_cases h3 : x.id = article_id
      · right
        refine ⟨x, hx, ?_⟩
        rw [← hfx]
        simp [h3]
      · left
        rw [← hfx]
        simpa [h3] using hx

/-- A missing article leaves `summarize_article` with no database write. -/
theorem summarize_article_none {db : ArticlesDB} {article_id : Nat}
    (scrape : ScrapeOutcome) (ai : Except String (List (String × String)))
    (hga : get_article_by_id db article_id = none) :
    (summarize_article db article_id scrape ai).2 = db := by
  unfold summarize_article
  rw [hga]

/-- With a non-raising AI step, every row after `summarize_article` is an
original row or carries one of the two statuses the success path writes. -/
theorem summarize_article_ok_cases {db : ArticlesDB} {article_id : Nat}
    {scrape : ScrapeOutcome} {data : List (String × String)} {a' : Article}
    (h : a' ∈ (summarize_article db article_id scrape (.ok data)).2.rows) :
    a' ∈ db.rows ∨ a'.status = "scraping_failed" ∨ a'.status = "summarized" := by
  unfold summarize_article at h
  cases hga : get_article_by_id db article_id with
  | none =>
    rw [hga] at h
    exact .inl h
  | some art =>
    rw [hga] at h
    cases scrape with
    | error e =>
      have h' : a' ∈ (update_article db article_id
          [ArticleField.status "scraping_failed",
           ArticleField.summary (some ("Scraping error: " ++ e))]).2.rows := h
      rcases mem_update_article_cases h' with hmem | ⟨a, _, ha⟩
      · exact .inl hmem
      · right
        left
        rw [ha]
        rfl
    | ok contentOpt =>
      dsimp only at h
      by_cases hc : contentOpt.getD "" = ""
      · rw [if_pos hc] at h
        have h' : a' ∈ (update_article (update_article db article_id
            [ArticleField.status "scraping_failed",
             ArticleField.summary (some "No content found at URL.")]).2 article_id
            [ArticleField.status "scraping_failed",
             ArticleField.summary (some ("Scraping error: 400: " ++
               "Failed to fetch or parse article content: No content found."))]).2.rows := h
        rcases mem_update_article_cases h' with hmem | ⟨a, _, ha⟩
        · rcases mem_update_article_cases hmem with hmem₂ | ⟨a, _, ha⟩
          · exact .inl hmem₂
          · right
            left
            rw [ha]
            rfl
        · right
          left
          rw [ha]
          rfl
      · rw [if_neg hc] at h
        cases hupd : (update_article db article_id
            [ArticleField.title (data.lookup "title"),
             ArticleField.summary (data.lookup "summary_body"),
             ArticleField.original_content (some (contentOpt.getD "")),
             ArticleField.status "summarized"]).1 with
        | none =>
          rw [hupd] at h
          rcases mem_update_article_cases h with hmem | ⟨a, _, ha⟩
          · exact .inl hmem
          · right
            right
            rw [ha]
            rfl
        | some u =>
          rw [hupd] at h
          rcases mem_update_article_cases h with hmem | ⟨a, _, ha⟩
          · exact .inl hmem
          · right
            right
            rw [ha]
            rfl

/-- C10: the embedded `get_ai_summary` is total — for every environment
(key present or missing, call succeeding or raising, output parseable or
not) it returns a dict holding both the `title` and the `summary_body`
key — and consequently the `ai_failed` branch of the caller is
unreachable: running the pipeline with the real adapter never writes
status `ai_failed` to any row that did not already carry it. -/
theorem claim_c10_ai_adapter_total :
    (∀ (env : AIEnv) (title content url : String),
      ((get_ai_summary env title content url).lookup "title").isSome = true ∧
      ((get_ai_summary env title content url).lookup "summary_body").isSome = true) ∧
    (∀ (db : ArticlesDB) (article_id : Nat) (scrape : ScrapeOutcome) (env : AIEnv),
      (∀ a ∈ db.rows, a.status ≠ "ai_failed") →
      ∀ a' ∈ (summarize_article_live db article_id scrape env).2.rows,
        a'.status ≠ "ai_failed") := by
  constructor
  · intro env title content url
    obtain ⟨apiKey, chatResult⟩ := env
    unfold get_ai_summary
    cases apiKey with
    | none => exact ⟨rfl, rfl⟩
    | some k =>
      cases chatResult with
      | error e => exact ⟨rfl, rfl⟩
      | ok raw => exact ⟨rfl, rfl⟩
  · intro db article_id scrape env hprev a' ha'
    unfold summarize_article_live at ha'
    cases hga : get_article_by_id db article_id with
    | none =>
      rw [hga] at ha'
      have : (summarize_article db article_id scrape (.error "unreached")).2 = db :=
        summarize_article_none scrape (.error "unreached") hga
      rw [this] at ha'
      exact hprev a' ha'
    | some art =>
      rw [hga] at ha'
      rcases summarize_article_ok_cases ha' with hmem | hst | hst
      · exact hprev a' hmem
      · rw [hst]
        decide
      · rw [hst]
        decide

/-- C10 witness: a concrete run of the live pipeline — missing API key,
successful scrape — produces a summarized article, and the adapter's dict
has both keys. -/
theorem claim_c10_witness :
    (((get_ai_summary { apiKey := none, chatResult := .ok "" } "t" "c" "u").lookup
        "title").isSome = true) ∧
    (∀ a' ∈ (summarize_article_live articlesDbPendingEx 1 (.ok (some "text"))
        { apiKey := none, chatResult := .ok "" }).2.rows,
      a'.status ≠ "ai_failed") := by
  constructor
  · exact (claim_c10_ai_adapter_total.1 { apiKey := none, chatResult := .ok "" } "t" "c" "u").1
  · exact claim_c10_ai_adapter_total.2 articlesDbPendingEx 1 (.ok (some "text"))
      { apiKey := none, chatResult := .ok "" } (by decide)

-- ------------------------------------------------------------------
-- C1: the ordering invariant under create / move / delete
-- ------------------------------------------------------------------

/-- Unfolds `maxPos` on a cons. -/
theorem maxPos_cons (x : Nat) (l : List Nat) : maxPos (x :: l) = max x (maxPos l) := rfl

/-- Lemma: `SELECT MAX(...)` is invariant under reordering the rows. -/
theorem maxPos_perm {l₁ l₂ : List Nat} (h : l₁.Perm l₂) : maxPos l₁ = maxPos l₂ := by
  induction h with
  | nil => rfl
  | cons x _ ih => rw [maxPos_cons, maxPos_cons, ih]
  | swap x y l => rw [maxPos_cons, maxPos_cons, maxPos_cons, maxPos_cons]
                  exact max_left_comm _ _ _
  | trans _ _ ih₁ ih₂ => exact ih₁.trans ih₂

/-- The maximum of the contiguous block `k, k+1, ..., k+n`. -/
theorem maxPos_range' : ∀ n k : Nat, maxPos (List.range' k (n + 1)) = k + n := by
  intro n
  induction n with
  | zero =>
    intro k
    show max k (maxPos []) = k + 0
    rw [Nat.add_zero]
    exact Nat.max_zero k
  | succ m ih =>
    intro k
    rw [List.range'_succ, maxPos_cons, ih (k + 1)]
    rw [Nat.max_eq_right (by omega)]
    omega

/-- The Python tuple swap produces a permutation of the id list. -/
theorem swapAdjacent_perm : ∀ (l : List Nat) (n : Nat), (swapAdjacent l n).Perm l
  | [], _ => by
    show List.Perm [] []
    exact List.Perm.refl []
  | [x], 0 => by
    show List.Perm [x] [x]
    exact List.Perm.refl [x]
  | [x], (n + 1) => by
    show List.Perm (x :: swapAdjacent [] n) [x]
    exact List.Perm.refl [x]
  | x :: y :: rest, 0 => by
    show List.Perm (y :: x :: rest) (x :: y :: rest)
    exact List.Perm.swap x y rest
  | x :: y :: rest, (n + 1) => by
    show List.Perm (x :: swapAdjacent (y :: rest) n) (x :: y :: rest)
    exact (swapAdjacent_perm (y :: rest) n).cons x

/-- While every row is pending, the `status != 'archived'` filter keeps
everything. -/
theorem filter_isActive_of_pending {rows : List Article}
    (h : ∀ a ∈ rows, a.status = "pending") : rows.filter isActive = rows := by
  apply List.filter_eq_self.mpr
  intro a ha
  unfold isActive
  rw [h a ha]
  rfl

/-- Closed form of the sequential position-assignment loop: with no
duplicate ids in the order list, each listed row ends at
`start + (its index in the order)`, unlisted rows are untouched. -/
theorem assignPositions_eq (ids : List Nat) :
    ids.Nodup → ∀ (rows : List Article) (start : Nat),
    assignPositions rows start ids =
      rows.map (fun a =>
        if a.id ∈ ids then { a with position := start + ids.indexOf a.id } else a) := by
  induction ids with
  | nil =>
    intro _ rows start
    simp [assignPositions]
  | cons aid rest ih =>
    intro hnd rows start
    rw [List.nodup_cons] at hnd
    rw [show assignPositions rows start (aid :: rest) =
        assignPositions (updateRowPosition rows aid start) (start + 1) rest from rfl]
    rw [ih hnd.2]
    unfold updateRowPosition
    rw [List.map_map]
    apply List.map_congr_left
    intro a _
    by_cases heq : a.id = aid
    · have hnotin : a.id ∉ rest := heq ▸ hnd.1
      simp [Function.comp, heq, hnotin, List.indexOf_cons_self]
      intro hmem'
      exact absurd hmem' (heq ▸ hnotin)
    · by_cases hmem : a.id ∈ rest
      · have hidx : List.indexOf a.id (aid :: rest) = (List.indexOf a.id rest) + 1 := by
          simpa using List.indexOf_cons_ne rest (Ne.symm heq)
        have harith : start + 1 + List.indexOf a.id rest =
            start + (List.indexOf a.id rest + 1) := by omega
        simp [Function.comp, heq, hmem, hidx, harith]
      · simp [Function.comp, heq, hmem]

/-- Mapping each element of a duplicate-free list to `start + (its own
index)` enumerates the contiguous block starting at `start`. -/
theorem map_indexOf_range : ∀ (ids : List Nat), ids.Nodup → ∀ start : Nat,
    ids.map (fun i => start + ids.indexOf i) = List.range' start ids.length := by
  intro ids
  induction ids with
  | nil =>
    intro _ start
    rfl
  | cons aid rest ih =>
    intro hnd start
    rw [List.nodup_cons] at hnd
    rw [List.map_cons]
    have hhead : start + List.indexOf aid (aid :: rest) = start := by
      rw [List.indexOf_cons_self]
      omega
    have htail : rest.map (fun i => start + List.indexOf i (aid :: rest)) =
        rest.map (fun i => (start + 1) + rest.indexOf i) := by
      apply List.map_congr_left
      intro i hi
      have hne : aid ≠ i := fun he => hnd.1 (he ▸ hi)
      rw [List.indexOf_cons_ne rest hne]
      omega
    rw [hhead, htail, ih hnd.2 (start + 1)]
    rw [List.length_cons, List.range'_succ]

/-- Renumbering the rows by a duplicate-free order list covering all ids
makes the position multiset exactly the block `start .. start+N-1`. -/
theorem assignPositions_positions_perm {rows : List Article} {ids : List Nat}
    (hnd : ids.Nodup) (hperm : (rows.map (·.id)).Perm ids) (start : Nat) :
    ((assignPositions rows start ids).map (·.position)).Perm
      (List.range' start rows.length) := by
  rw [assignPositions_eq ids hnd rows start]
  have hall : ∀ a ∈ rows, a.id ∈ ids := by
    intro a ha
    exact hperm.mem_iff.mp (List.mem_map_of_mem _ ha)
  have h1 : ((rows.map (fun a =>
      if a.id ∈ ids then { a with position := start + ids.indexOf a.id } else a)).map
        (·.position)) = rows.map (fun a => start + ids.indexOf a.id) := by
    rw [List.map_map]
    apply List.map_congr_left
    intro a ha
    simp [Function.comp, hall a ha]
  rw [h1]
  have h2 : rows.map (fun a => start + ids.indexOf a.id) =
      (rows.map (·.id)).map (fun i => start + ids.indexOf i) := by
    rw [List.map_map]
    rfl
  rw [h2]
  have h3 := hperm.map (fun i => start + ids.indexOf i)
  rw [map_indexOf_range ids hnd start] at h3
  have hlen : ids.length = rows.length := by
    have := hperm.length_eq
    rw [List.length_map] at this
    exact this.symm
  rw [hlen] at h3
  exact h3

/-- Every row after the renumbering loop descends from an original row,
with id, url and status unchanged. -/
theorem mem_assignPositions {rows : List Article} {ids : List Nat} {start : Nat}
    {a' : Article} (hnd : ids.Nodup) (h : a' ∈ assignPositions rows start ids) :
    ∃ a ∈ rows, a'.id = a.id ∧ a'.status = a.status := by
  rw [assignPositions_eq ids hnd rows start] at h
  rcases List.mem_map.mp h with ⟨a, ha, hfa⟩
  refine ⟨a, ha, ?_⟩
  by_cases hmem : a.id ∈ ids
  · rw [← hfa]
    simp [hmem]
  · rw [← hfa]
    simp [hmem]

/-- The renumbering loop keeps the id column (as a list) unchanged. -/
theorem assignPositions_map_id {rows : List Article} {ids : List Nat} {start : Nat}
    (hnd : ids.Nodup) :
    (assignPositions rows start ids).map (·.id) = rows.map (·.id) := by
  rw [assignPositions_eq ids hnd rows start, List.map_map]
  apply List.map_congr_left
  intro a _
  by_cases hmem : a.id ∈ ids <;> simp [Function.comp, hmem]

/-- The renumbering loop keeps the number of rows unchanged. -/
theorem assignPositions_length {rows : List Article} {ids : List Nat} {start : Nat}
    (hnd : ids.Nodup) :
    (assignPositions rows start ids).length = rows.length := by
  rw [assignPositions_eq ids hnd rows start, List.length_map]

/-- Renumbering by any permutation of the ids, starting at 0 or 1,
re-establishes the invariant whatever the previous positions were. -/
theorem dbWF_renumber (db : ArticlesDB) (ids : List Nat) (start : Nat) (hstart : start ≤ 1)
    (hnd : (db.rows.map (·.id)).Nodup)
    (hbound : ∀ a ∈ db.rows, a.id < db.nextId)
    (hpend : ∀ a ∈ db.rows, a.status = "pending")
    (hperm : (db.rows.map (·.id)).Perm ids) :
    dbWF { db with rows := assignPositions db.rows start ids } := by
  have hndids : ids.Nodup := hperm.nodup hnd
  refine ⟨?_, ?_, ?_, ⟨start, hstart, ?_⟩⟩
  · rw [assignPositions_map_id hndids]
    exact hnd
  · intro a' ha'
    rcases mem_assignPositions hndids ha' with ⟨a, ha, hid, _⟩
    rw [hid]
    exact hbound a ha
  · intro a' ha'
    rcases mem_assignPositions hndids ha' with ⟨a, ha, _, hst⟩
    rw [hst]
    exact hpend a ha
  · rw [assignPositions_length hndids]
    exact assignPositions_positions_perm hndids hperm start

/-- Lemma: `POST /articles` (status defaulting to `pending`) preserves the
invariant: a conflict writes nothing, a fresh insert extends the
contiguous block by one at `max + 1`, and the resurrection branch is
unreachable while every row is pending. -/
theorem dbWF_create (db : ArticlesDB) (url : String) (t s sm : Option String)
    (hwf : dbWF db) : dbWF (add_article db url t s sm "pending").2 := by
  obtain ⟨hnd, hbound, hpend, k, hk, hpk⟩ := hwf
  unfold add_article
  cases hfind : db.rows.find? (fun a => a.url = url) with
  | some existing =>
    have hex : existing ∈ db.rows := List.mem_of_find?_eq_some hfind
    have hpe : existing.status = "pending" := hpend existing hex
    dsimp only
    rw [if_neg (by rw [hpe]; decide)]
    exact ⟨hnd, hbound, hpend, k, hk, hpk⟩
  | none =>
    dsimp only
    refine ⟨?_, ?_, ?_, ?_⟩
    · rw [List.map_append, List.nodup_append]
      refine ⟨hnd, List.nodup_singleton _, ?_⟩
      intro x hx hy
      rcases List.mem_map.mp hx with ⟨a0, ha0, hida⟩
      have hxval : x = db.nextId := by simpa using hy
      rw [← hida] at hxval
      exact absurd hxval (Nat.ne_of_lt (hbound a0 ha0))
    · intro a ha
      rcases List.mem_append.mp ha with h | h
      · exact Nat.lt_trans (hbound a h) (Nat.lt_succ_self _)
      · rw [List.mem_singleton.mp h]
        exact Nat.lt_succ_self _
    · intro a ha
      rcases List.mem_append.mp ha with h | h
      · exact hpend a h
      · rw [List.mem_singleton.mp h]
    · cases hn : db.rows.length with
      | zero =>
        have hrows : db.rows = [] := List.length_eq_zero.mp hn
        refine ⟨1, Nat.le_refl 1, ?_⟩
        rw [hrows]
        exact List.Perm.refl _
      | succ m =>
        refine ⟨k, hk, ?_⟩
        have hp : maxPosAllArticles db.rows = k + m := by
          unfold maxPosAllArticles
          rw [maxPos_perm hpk, hn, maxPos_range']
        rw [List.map_append, List.length_append, hn]
        simp only [List.length_singleton]
        have hconcat : List.range' k (m + 1 + 1) = List.range' k (m + 1) ++ [k + 1 * (m + 1)] :=
          List.range'_concat k (m + 1)
        rw [hconcat]
        have hval : k + 1 * (m + 1) = maxPosAllArticles db.rows + 1 := by omega
        rw [hval]
        have hpk' : (db.rows.map (·.position)).Perm (List.range' k (m + 1)) := by
          rw [← hn]
          exact hpk
        exact hpk'.append_right _

/-- Lemma: `DELETE /articles/id` preserves the invariant, and whenever a row was
actually deleted the surviving rows are re-indexed to exactly `1..N`. -/
theorem dbWF_delete_core (db : ArticlesDB) (aid : Nat) (hwf : dbWF db) :
    dbWF (delete_article db aid).2 ∧
    ((delete_article db aid).1 = true →
      ((delete_article db aid).2.rows.map (·.position)).Perm
        (List.range' 1 (delete_article db aid).2.rows.length)) := by
  obtain ⟨hnd, hbound, hpend, k, hk, hpk⟩ := hwf
  unfold delete_article
  by_cases hall : db.rows.all (fun a => a.id ≠ aid) = true
  · rw [if_pos hall]
    exact ⟨⟨hnd, hbound, hpend, k, hk, hpk⟩, fun h => absurd h Bool.false_ne_true⟩
  · rw [if_neg hall]
    dsimp only
    have hpend₁ : ∀ a ∈ db.rows.filter (fun a => a.id ≠ aid), a.status = "pending" := by
      intro a ha
      exact hpend a (List.mem_filter.mp ha).1
    have hbound₁ : ∀ a ∈ db.rows.filter (fun a => a.id ≠ aid), a.id < db.nextId := by
      intro a ha
      exact hbound a (List.mem_filter.mp ha).1
    have hfilter : (db.rows.filter (fun a => a.id ≠ aid)).filter isActive =
        db.rows.filter (fun a => a.id ≠ aid) := filter_isActive_of_pending hpend₁
    have hnd₁ : ((db.rows.filter (fun a => a.id ≠ aid)).map (·.id)).Nodup :=
      List.Nodup.sublist (List.Sublist.map _ (List.filter_sublist db.rows)) hnd
    have hsort : (List.insertionSort byPosition
        ((db.rows.filter (fun a => a.id ≠ aid)).filter isActive)).Perm
        (db.rows.filter (fun a => a.id ≠ aid)) := by
      rw [hfilter]
      exact List.perm_insertionSort byPosition _
    have hidsperm : ((db.rows.filter (fun a => a.id ≠ aid)).map (·.id)).Perm
        ((List.insertionSort byPosition
          ((db.rows.filter (fun a => a.id ≠ aid)).filter isActive)).map (·.id)) :=
      (hsort.map _).symm
    have hndids := hidsperm.nodup hnd₁
    constructor
    · exact dbWF_renumber { db with rows := db.rows.filter (fun a => a.id ≠ aid) } _ 1
        (Nat.le_refl 1) hnd₁ hbound₁ hpend₁ hidsperm
    · intro _
      rw [assignPositions_length hndids]
      exact assignPositions_positions_perm hndids hidsperm 1

/-- The admin move preserves the invariant (renumbering from 0 when it
writes at all). -/
theorem dbWF_move (db : ArticlesDB) (aid : Nat) (dir : MoveDirection) (hwf : dbWF db) :
    dbWF (move_article db aid dir) := by
  obtain ⟨hnd, hbound, hpend, k, hk, hpk⟩ := hwf
  have hperm0 : ((fetch_all_articles db).map (·.id)).Perm (db.rows.map (·.id)) := by
    unfold fetch_all_articles
    rw [filter_isActive_of_pending hpend]
    exact (List.perm_insertionSort byPosition db.rows).map _
  unfold move_article
  dsimp only
  cases hidx : ((fetch_all_articles db).map (·.id)).findIdx? (fun i => i = aid) with
  | none =>
    exact ⟨hnd, hbound, hpend, k, hk, hpk⟩
  | some i =>
    cases dir with
    | up =>
      dsimp only
      by_cases hgt : 0 < i
      · rw [if_pos hgt]
        exact dbWF_renumber db _ 0 (Nat.zero_le 1) hnd hbound hpend
          (hperm0.symm.trans (swapAdjacent_perm _ _).symm)
      · rw [if_neg hgt]
        exact ⟨hnd, hbound, hpend, k, hk, hpk⟩
    | down =>
      dsimp only
      by_cases hlt : i < ((fetch_all_articles db).map (·.id)).length - 1
      · rw [if_pos hlt]
        exact dbWF_renumber db _ 0 (Nat.zero_le 1) hnd hbound hpend
          (hperm0.symm.trans (swapAdjacent_perm _ _).symm)
      · rw [if_neg hlt]
        exact ⟨hnd, hbound, hpend, k, hk, hpk⟩

/-- Each of the three operations preserves the invariant. -/
theorem dbWF_apply (db : ArticlesDB) (op : ArticleOp) (hwf : dbWF db) :
    dbWF (applyArticleOp db op) := by
  cases op with
  | create url t s sm => exact dbWF_create db url t s sm hwf
  | move aid dir => exact dbWF_move db aid dir hwf
  | delete aid => exact (dbWF_delete_core db aid hwf).1

/-- The freshly initialised table satisfies the invariant. -/
theorem dbWF_empty : dbWF emptyArticlesDB := by
  refine ⟨List.nodup_nil, ?_, ?_, ⟨1, Nat.le_refl 1, List.Perm.nil⟩⟩
  · intro a ha
    exact absurd ha (List.not_mem_nil a)
  · intro a ha
    exact absurd ha (List.not_mem_nil a)

/-- The invariant holds along every operation sequence. -/
theorem dbWF_foldl : ∀ (ops : List ArticleOp) (db : ArticlesDB), dbWF db →
    dbWF (ops.foldl applyArticleOp db)
  | [], _, h => h
  | op :: rest, db, h => dbWF_foldl rest _ (dbWF_apply db op h)

/-- The invariant holds after every sequence of operations from the empty
table. -/
theorem dbWF_run (ops : List ArticleOp) : dbWF (runArticleOps ops) :=
  dbWF_foldl ops emptyArticlesDB dbWF_empty

/-- C1 counterexample: import two articles, then move the second one up —
the admin renumbering is 0-based, so the active positions become `{0, 1}`,
not `{1, 2}` as the claim requires. -/
theorem claim_c1_counterexample :
    activePositions (runArticleOps c1OpsEx) = [1, 0] ∧
    ¬ (activePositions (runArticleOps c1OpsEx)).Perm
      (List.range' 1 ((runArticleOps c1OpsEx).rows.filter isActive).length) := by
  decide

/-- C1 (amended): after every sequence of create / move (up or down) /
delete operations from the empty table, the positions of the non-archived
articles form a contiguous duplicate-free block of consecutive integers —
but the block starts at 0 or 1, not always at 1: every delete re-indexes
the survivors to exactly `{1..N}`, a fresh create extends the current
block at `max + 1`, while a successful admin move renumbers the whole
active list from 0, leaving `{0..N-1}`. -/
theorem claim_c1_amended :
    (∀ ops : List ArticleOp,
      ∃ k ≤ 1, (activePositions (runArticleOps ops)).Perm
        (List.range' k ((runArticleOps ops).rows.filter isActive).length)) ∧
    (∀ (ops : List ArticleOp) (article_id : Nat),
      (delete_article (runArticleOps ops) article_id).1 = true →
      (activePositions (delete_article (runArticleOps ops) article_id).2).Perm
        (List.range' 1
          ((delete_article (runArticleOps ops) article_id).2.rows.filter isActive).length)) := by
  constructor
  · intro ops
    obtain ⟨_, _, hpend, k, hk, hpk⟩ := dbWF_run ops
    refine ⟨k, hk, ?_⟩
    unfold activePositions
    rw [filter_isActive_of_pending hpend]
    exact hpk
  · intro ops article_id hdel
    have hwf := dbWF_run ops
    have hcore := (dbWF_delete_core (runArticleOps ops) article_id hwf).2 hdel
    obtain ⟨_, _, hpend', _⟩ := (dbWF_delete_core (runArticleOps ops) article_id hwf).1
    unfold activePositions
    rw [filter_isActive_of_pending hpend']
    exact hcore

/-- C1 witness: create two articles then delete the first — the survivor
is re-indexed to exactly `{1}`. -/
theorem claim_c1_witness :
    (activePositions (delete_article (runArticleOps
      [ArticleOp.create "u1" none none none, ArticleOp.create "u2" none none none]) 1).2).Perm
      (List.range' 1 1) := by
  have h := claim_c1_amended.2
    [ArticleOp.create "u1" none none none, ArticleOp.create "u2" none none none] 1 (by decide)
  exact h
